import Mathlib

/-!
Verification development for the forecast acquisition/caching core of the
avalanche-report repository.  The definitions below are a shallow embedding
of `src/forecasts/mod.rs` (`parse_forecast_name_impl`, `get_forecast_data`)
and `src/google_drive.rs` (`ListFileMetadata.is_google_sheet`).  External
collaborators (the google-drive HTTP calls, the spreadsheet parser, the
database and the timezone/language libraries) are embedded as explicit
function parameters or small models, as noted on each definition.
-/

deriving instance DecidableEq for Except

namespace AvalancheReport

/-- Embeds the wall-clock part of `time::PrimitiveDateTime`, at the
minute precision used by the file-name format
`[year]-[month]-[day]T[hour]:[minute]`. -/
structure PrimitiveDateTime where
  year : Nat
  month : Nat
  day : Nat
  hour : Nat
  minute : Nat
deriving DecidableEq, Repr

/-- Proleptic-Gregorian leap-year test (embeds the `time` crate's
calendar arithmetic). -/
def isLeapYear (y : Nat) : Bool :=
  (y % 4 == 0 && y % 100 != 0) || y % 400 == 0

/-- Number of days in a month (embeds the `time` crate's calendar
arithmetic, also used to validate parsed dates). -/
def daysInMonth (year month : Nat) : Nat :=
  if month = 2 then (if isLeapYear year then 29 else 28)
  else if month = 4 ∨ month = 6 ∨ month = 9 ∨ month = 11 then 30
  else 31

/-- Number of leap years in `1..=y`. -/
def leapDaysBefore (y : Nat) : Nat := y / 4 - y / 100 + y / 400

/-- Days of `year` that precede the first day of `month`. -/
def daysBeforeMonth (year month : Nat) : Nat :=
  ((List.range (month - 1)).map (fun m0 => daysInMonth year (m0 + 1))).sum

/-- Days since 1970-01-01 (valid for years from 1970 on, which covers
every date this system handles). -/
def daysFromEpoch (year month day : Nat) : Nat :=
  365 * (year - 1970) + (leapDaysBefore (year - 1) - leapDaysBefore 1969)
    + daysBeforeMonth year month + (day - 1)

/-- Seconds since the unix epoch of a wall-clock value read as UTC. -/
def PrimitiveDateTime.epoch_seconds (dt : PrimitiveDateTime) : Int :=
  Int.ofNat (daysFromEpoch dt.year dt.month dt.day * 86400
    + dt.hour * 3600 + dt.minute * 60)

/-- Embeds `time::OffsetDateTime`: wall-clock fields together with a UTC
offset in seconds east.  `PrimitiveDateTime::assume_offset(o)` is the pair
`⟨dt, o⟩`; `OffsetDateTime::replace_offset(o)` keeps the wall-clock fields
and replaces the offset. -/
structure OffsetDateTime where
  dt : PrimitiveDateTime
  offset : Int
deriving DecidableEq, Repr

/-- Embeds `OffsetDateTime::unix_timestamp`: the absolute instant that the
wall-clock fields denote at the given offset. -/
def OffsetDateTime.unix_timestamp (t : OffsetDateTime) : Int :=
  t.dt.epoch_seconds - t.offset

/-- Embeds a `time_tz` timezone as consumed by `parse_forecast_name_impl`:
`primary_offset` is `get_offset_primary().to_utc()` in seconds, and
`offset_at ts` is `get_offset_utc(t).to_utc()` for an instant `t` with unix
timestamp `ts`. -/
structure Tz where
  primary_offset : Int
  offset_at : Int → Int

/-- Embeds `forecast_spreadsheet::options::AreaDefinition` (the `time_zone`
field is the only one the decoder reads). -/
structure AreaDefinition where
  time_zone : Tz

/-- Splitting a character list on a separator character, with the exact
semantics of Rust's `str::split(char)`: every occurrence separates, empty
segments are kept, and the empty input yields one empty segment. -/
def splitOnChar (c : Char) (l : List Char) : List (List Char) :=
  match l with
  | [] => [[]]
  | x :: xs =>
    let r := splitOnChar c xs
    if x = c then [] :: r
    else
      match r with
      | [] => [[x]]
      | y :: ys => (x :: y) :: ys

/-- Embeds `PrimitiveDateTime::parse` against the fixed format description
`[year]-[month]-[day]T[hour]:[minute]` (source line 114): exactly sixteen
characters in the shape `DDDD-DD-DDTDD:DD`, with the components validated
against calendar ranges. -/
def parsePrimitiveDateTime (l : List Char) : Option PrimitiveDateTime :=
  match l with
  | [y1, y2, y3, y4, '-', m1, m2, '-', d1, d2, 'T', h1, h2, ':', n1, n2] =>
    if y1.isDigit ∧ y2.isDigit ∧ y3.isDigit ∧ y4.isDigit ∧ m1.isDigit ∧
        m2.isDigit ∧ d1.isDigit ∧ d2.isDigit ∧ h1.isDigit ∧ h2.isDigit ∧
        n1.isDigit ∧ n2.isDigit then
      let year := ((y1.toNat - 48) * 10 + (y2.toNat - 48)) * 100
        + (y3.toNat - 48) * 10 + (y4.toNat - 48)
      let month := (m1.toNat - 48) * 10 + (m2.toNat - 48)
      let day := (d1.toNat - 48) * 10 + (d2.toNat - 48)
      let hour := (h1.toNat - 48) * 10 + (h2.toNat - 48)
      let minute := (n1.toNat - 48) * 10 + (n2.toNat - 48)
      if 1 ≤ month ∧ month ≤ 12 ∧ 1 ≤ day ∧ day ≤ daysInMonth year month ∧
          hour ≤ 23 ∧ minute ≤ 59 then
        some ⟨year, month, day, hour, minute⟩
      else none
    else none
  | _ => none

/-- The error sites of `parse_forecast_name_impl`, one constructor per
`eyre!`/`wrap_err` site in the source (lines 92-129), in source order. -/
inductive NameError where
  | FileNameEmpty
  | NoAreaSpecified
  | NoTimeSpecified
  | NoForecasterSpecified
  | UnknownArea (area : String)
  | UnknownAreaDefinition (area_id : String)
  | TimeParseError (time_string : String)
  | LanguageParseError
deriving DecidableEq, Repr

/-- The spec files the first four error sites (empty name, missing area,
missing time, missing forecaster) under `MalformedName`. -/
def isMalformedName : NameError → Bool
  | NameError.FileNameEmpty => true
  | NameError.NoAreaSpecified => true
  | NameError.NoTimeSpecified => true
  | NameError.NoForecasterSpecified => true
  | _ => false

/-- Embeds `ForecastDetails` (the `time` field keeps its resolved offset,
as in the source where it is an `OffsetDateTime`). -/
structure ForecastDetails where
  area : String
  time : OffsetDateTime
  forecaster : String
deriving DecidableEq, Repr

/-- Embeds `ForecastFileDetails`; the language is the raw tag accepted by
the language parser. -/
structure ForecastFileDetails where
  forecast : ForecastDetails
  language : Option String
deriving DecidableEq, Repr

/-- First match in an association list, embedding `HashMap::get` /
`IndexMap::get` for the string-keyed tables the decoder consults. -/
def alist_get {α : Type} (l : List (String × α)) (k : String) : Option α :=
  match l with
  | [] => none
  | p :: ps => if p.1 = k then some p.2 else alist_get ps k

/-- Embeds `parse_forecast_name_impl` (source lines 87-141).  The external
language-tag parser (`unic_langid`, applied at line 128) is passed in as
`langid`; the area tables are association lists with `AreaId` as `String`.
The two-phase time resolution is verbatim: the wall-clock time is first
assumed at the primary offset, the timezone is queried at that provisional
instant, and the wall-clock fields are recombined with the returned
offset. -/
def parse_forecast_name_impl (langid : String → Option String)
    (file_name : String) (area_name_map : List (String × String))
    (area_definitions : List (String × AreaDefinition)) :
    Except NameError ForecastFileDetails :=
  match splitOnChar '.' file_name.data with
  | [] => Except.error NameError.FileNameEmpty
  | details :: rest_parts =>
    match splitOnChar '_' details with
    | [] => Except.error NameError.NoAreaSpecified
    | area_chars :: after_area =>
      let area := String.mk area_chars
      match alist_get area_name_map area with
      | none => Except.error (NameError.UnknownArea area)
      | some area_id =>
        match alist_get area_definitions area_id with
        | none => Except.error (NameError.UnknownAreaDefinition area_id)
        | some ad =>
          let tz := ad.time_zone
          let primary_offset := tz.primary_offset
          match after_area with
          | [] => Except.error NameError.NoTimeSpecified
          | time_chars :: after_time =>
            match parsePrimitiveDateTime time_chars with
            | none => Except.error (NameError.TimeParseError (String.mk time_chars))
            | some guess =>
              let guess_time : OffsetDateTime := ⟨guess, primary_offset⟩
              let real_offset := tz.offset_at guess_time.unix_timestamp
              let time : OffsetDateTime := ⟨guess, real_offset⟩
              match after_time with
              | [] => Except.error NameError.NoForecasterSpecified
              | forecaster_chars :: _ =>
                let forecaster := String.mk forecaster_chars
                match rest_parts with
                | [] => Except.ok ⟨⟨area, time, forecaster⟩, none⟩
                | language_chars :: _ =>
                  match langid (String.mk language_chars) with
                  | none => Except.error NameError.LanguageParseError
                  | some language =>
                    Except.ok ⟨⟨area, time, forecaster⟩, some language⟩

/-- Fixture: a fixed UTC+4 timezone with no seasonal variation, the
area timezone the spec's Gudauri examples use. -/
def gudauriTz : Tz := ⟨4 * 3600, fun _ => 4 * 3600⟩

/-- Fixture: area-name table mapping "Gudauri" to its area id, as in the
gudauri schema. -/
def gudauriMap : List (String × String) := [("Gudauri", "gudauri")]

/-- Fixture: area-definition table for the Gudauri area. -/
def gudauriDefs : List (String × AreaDefinition) := [("gudauri", ⟨gudauriTz⟩)]

/-- The instant at which Melbourne's 2023 daylight-saving period starts:
2023-10-01T02:00 at the standard +10:00 offset. -/
def melbourneDstStart2023 : Int :=
  PrimitiveDateTime.epoch_seconds ⟨2023, 10, 1, 2, 0⟩ - 10 * 3600

/-- Modelled from the spec: the Melbourne seasonal rule set (provided in
the source by the external `time_tz` timezone database), restricted to the
2023 transition the spec's examples exercise — standard offset +10:00,
daylight offset +11:00 from 2023-10-01T02:00+10:00 on. -/
def melbourneTz : Tz :=
  ⟨10 * 3600, fun t => if t < melbourneDstStart2023 then 10 * 3600 else 11 * 3600⟩

/-- Fixture: area-name table for the Melbourne test area. -/
def melbourneMap : List (String × String) := [("Melbourne", "melbourne")]

/-- Fixture: area-definition table for the Melbourne test area. -/
def melbourneDefs : List (String × AreaDefinition) := [("melbourne", ⟨melbourneTz⟩)]

/-- Modelled from the spec: a stand-in for the external standard
language-tag parser (`unic_langid`), defined on the tag the spec's
examples exercise. -/
def langid_fixture (s : String) : Option String :=
  if s = "en" then some "en" else none

/-! ## The `get_forecast_data` cache orchestration

The parsed forecast type (`forecast_spreadsheet::Forecast`) is opaque to
the cache logic, so it is a type parameter `F` below.  Schema versions
(`forecast_spreadsheet::Version`, opaque and equality-comparable, stored
in the database through `to_string`/`parse` round-trips) are `String`. -/

/-- Embeds `ForecastFile` (source lines 48-55), which is also the row type
of the `forecast_files` table. -/
structure ForecastFile (F : Type) where
  google_drive_id : String
  last_modified : Int
  file_blob : List Nat
  parsed_forecast : Option F
  schema_version : Option String
deriving DecidableEq, Repr

/-- Embeds `google_drive::ListFileMetadata` (the fields `get_forecast_data`
reads). `modified_time` is a unix timestamp. -/
structure ListFileMetadata where
  mime_type : String
  id : String
  name : String
  modified_time : Int
deriving DecidableEq, Repr

/-- Embeds `ListFileMetadata::is_google_sheet`. -/
def ListFileMetadata.is_google_sheet (m : ListFileMetadata) : Bool :=
  m.mime_type = "application/vnd.google-apps.spreadsheet"

/-- Embeds `RequestedForecastData`. -/
inductive RequestedForecastData where
  | Forecast
  | File
deriving DecidableEq, Repr

/-- Embeds `ForecastData`, the successful result of `get_forecast_data`. -/
inductive ForecastData (F : Type) where
  | Forecast (forecast : F)
  | File (bytes : List Nat)
deriving DecidableEq, Repr

/-- The failure modes of `get_forecast_data` in the spec's taxonomy: the
mime-type bail at line 482, failures of the remote fetches, and failures
of the spreadsheet parser. -/
inductive CacheError where
  | UnsupportedContentKind
  | FetchError
  | ParseError
deriving DecidableEq, Repr

/-- Embeds `ForecastSpreadsheetSchema` as the cache logic consumes it: its
version (`schema_version` field, compared at line 582) and the external
parser `forecast_spreadsheet::parse_excel_spreadsheet` specialised to this
schema (`none` is a parse failure). -/
structure Schema (F : Type) where
  schema_version : String
  parse : List Nat → Option F

/-- Embeds the remote store (`google_drive::export_file` for the xlsx
export fetch and `google_drive::get_file` for the raw fetch); `none` is a
fetch failure. -/
structure Remote where
  export_file : String → Option (List Nat)
  get_file : String → Option (List Nat)

/-- The `forecast_files` table: rows keyed by `google_drive_id` (assumed
unique, as the SQL primary key makes it). -/
abbrev DB (F : Type) := List (ForecastFile F)

/-- Embeds `SELECT ... FROM forecast_files WHERE google_drive_id=$1`
(first matching row). -/
def db_get {F : Type} (db : DB F) (id : String) : Option (ForecastFile F) :=
  match db with
  | [] => none
  | r :: rs => if r.google_drive_id = id then some r else db_get rs id

/-- Embeds `INSERT INTO forecast_files VALUES(..) ON CONFLICT(google_drive_id)
DO UPDATE SET last_modified=.., file_blob=.., parsed_forecast=..,
schema_version=..` (source lines 567-574): replace the keyed row in place,
or append a fresh row. -/
def db_upsert {F : Type} (db : DB F) (row : ForecastFile F) : DB F :=
  match db with
  | [] => [row]
  | r :: rs =>
    if r.google_drive_id = row.google_drive_id then row :: rs
    else r :: db_upsert rs row

/-- Embeds `UPDATE forecast_files SET parsed_forecast=$1, schema_version=$2
WHERE google_drive_id=$3` (source lines 607-612). -/
def db_update_parsed {F : Type} (db : DB F) (id : String) (pf : Option F)
    (sv : Option String) : DB F :=
  db.map (fun r =>
    if r.google_drive_id = id then
      { r with parsed_forecast := pf, schema_version := sv }
    else r)

/-- Counters for the observable effects of one `get_forecast_data` call:
remote content fetches (`export_file`/`get_file`, the listing call is
outside this function), spreadsheet parses, and reads/writes of the
`forecast_files` table. -/
structure Trace where
  fetches : Nat
  parses : Nat
  db_reads : Nat
  db_writes : Nat
deriving DecidableEq, Repr

/-- The full outcome of one `get_forecast_data` call: its return value,
the database state it leaves behind, and the effect counters. -/
structure GetOutcome (F : Type) where
  result : Except CacheError (ForecastData F)
  db : DB F
  trace : Trace
deriving DecidableEq, Repr

/-- Embeds the freshness filter of `get_forecast_data` (source lines
486-511): the cached row for the file's id, kept only when its
`last_modified` equals the remote descriptor's `modified_time` exactly. -/
def fresh_cached {F : Type} (db : DB F) (m : ListFileMetadata) :
    Option (ForecastFile F) :=
  (db_get db m.id).bind (fun c =>
    if c.last_modified = m.modified_time then some c else none)

/-- Embeds the reparse arm of the final `match` (source lines 593-614):
parse the cached blob under the current schema and persist only the
parsed forecast and schema version. -/
def reparse_and_update {F : Type} (db : DB F) (forecast_file : ForecastFile F)
    (forecast_schema : Schema F) (t : Trace) : GetOutcome F :=
  match forecast_schema.parse forecast_file.file_blob with
  | none =>
    ⟨Except.error CacheError.ParseError, db,
      ⟨t.fetches, t.parses + 1, t.db_reads, t.db_writes⟩⟩
  | some forecast =>
    ⟨Except.ok (ForecastData.Forecast forecast),
      db_update_parsed db forecast_file.google_drive_id (some forecast)
        (some forecast_schema.schema_version),
      ⟨t.fetches, t.parses + 1, t.db_reads, t.db_writes + 1⟩⟩

/-- Embeds the final `match requested` of `get_forecast_data` (source
lines 579-617): reuse the stored parse when its schema version matches the
current one, otherwise reparse and update; for a file request return the
blob as is. -/
def finish_request {F : Type} (requested : RequestedForecastData) (db : DB F)
    (forecast_file : ForecastFile F) (forecast_schema : Schema F)
    (t : Trace) : GetOutcome F :=
  match requested with
  | RequestedForecastData.Forecast =>
    match forecast_file.parsed_forecast with
    | some forecast =>
      if forecast_file.schema_version = some forecast_schema.schema_version then
        ⟨Except.ok (ForecastData.Forecast forecast), db, t⟩
      else reparse_and_update db forecast_file forecast_schema t
    | none => reparse_and_update db forecast_file forecast_schema t
  | RequestedForecastData.File =>
    ⟨Except.ok (ForecastData.File forecast_file.file_blob), db, t⟩

/-- Embeds `get_forecast_data` (source lines 472-618).  The mime-type
guard comes first; then the cached row is read and kept only if fresh;
a missing or stale row triggers the remote fetch appropriate to the
requested kind (an xlsx export fetch, parsed immediately, for a forecast
request; a raw fetch for a file request) followed by a full upsert; the
final stage serves the requested representation from the resulting row. -/
def get_forecast_data {F : Type} (remote : Remote) (m : ListFileMetadata)
    (requested : RequestedForecastData) (db : DB F)
    (forecast_schema : Schema F) : GetOutcome F :=
  if requested = RequestedForecastData.Forecast ∧ m.is_google_sheet = false then
    ⟨Except.error CacheError.UnsupportedContentKind, db, ⟨0, 0, 0, 0⟩⟩
  else
    match fresh_cached db m with
    | some forecast_file =>
      finish_request requested db forecast_file forecast_schema ⟨0, 0, 1, 0⟩
    | none =>
      match requested with
      | RequestedForecastData.Forecast =>
        match remote.export_file m.id with
        | none => ⟨Except.error CacheError.FetchError, db, ⟨1, 0, 1, 0⟩⟩
        | some bytes =>
          match forecast_schema.parse bytes with
          | none => ⟨Except.error CacheError.ParseError, db, ⟨1, 1, 1, 0⟩⟩
          | some forecast =>
            let row : ForecastFile F :=
              ⟨m.id, m.modified_time, bytes, some forecast,
                some forecast_schema.schema_version⟩
            finish_request requested (db_upsert db row) row forecast_schema
              ⟨1, 1, 1, 1⟩
      | RequestedForecastData.File =>
        match remote.get_file m.id with
        | none => ⟨Except.error CacheError.FetchError, db, ⟨1, 0, 1, 0⟩⟩
        | some bytes =>
          let row : ForecastFile F := ⟨m.id, m.modified_time, bytes, none, none⟩
          finish_request requested (db_upsert db row) row forecast_schema
            ⟨1, 0, 1, 1⟩

/-- The pairing invariant of a cache row: the parsed forecast and its
schema version are both present or both absent. -/
def pairInv {F : Type} (r : ForecastFile F) : Prop :=
  r.parsed_forecast.isSome = r.schema_version.isSome

/-! ## Helper lemmas -/

theorem splitOnChar_ne_nil (c : Char) (l : List Char) : splitOnChar c l ≠ [] := by
  induction l with
  | nil => simp [splitOnChar]
  | cons x xs ih =>
    simp only [splitOnChar]
    split
    · simp
    · cases h : splitOnChar c xs with
      | nil => simp
      | cons y ys => simp

theorem db_get_id {F : Type} {db : DB F} {id : String} {r : ForecastFile F}
    (h : db_get db id = some r) : r.google_drive_id = id := by
  induction db with
  | nil => simp [db_get] at h
  | cons x xs ih =>
    by_cases hc : x.google_drive_id = id
    · simp [db_get, hc] at h
      subst h
      exact hc
    · simp only [db_get, if_neg hc] at h
      exact ih h

theorem db_get_upsert_self {F : Type} (db : DB F) (row : ForecastFile F) :
    db_get (db_upsert db row) row.google_drive_id = some row := by
  induction db with
  | nil => simp [db_upsert, db_get]
  | cons x xs ih =>
    by_cases hc : x.google_drive_id = row.google_drive_id
    · simp [db_upsert, hc, db_get]
    · simp [db_upsert, hc, db_get, ih]

theorem mem_db_upsert {F : Type} {db : DB F} {row r : ForecastFile F}
    (h : r ∈ db_upsert db row) : r = row ∨ r ∈ db := by
  induction db with
  | nil =>
    simp [db_upsert] at h
    exact Or.inl h
  | cons x xs ih =>
    by_cases hc : x.google_drive_id = row.google_drive_id
    · simp only [db_upsert, if_pos hc, List.mem_cons] at h
      rcases h with h | h
      · exact Or.inl h
      · exact Or.inr (List.mem_cons_of_mem _ h)
    · simp only [db_upsert, if_neg hc, List.mem_cons] at h
      rcases h with h | h
      · exact Or.inr (h ▸ List.mem_cons_self _ _)
      · rcases ih h with h' | h'
        · exact Or.inl h'
        · exact Or.inr (List.mem_cons_of_mem _ h')

theorem db_get_update_self {F : Type} {db : DB F} {id : String}
    {r : ForecastFile F} (pf : Option F) (sv : Option String)
    (h : db_get db id = some r) :
    db_get (db_update_parsed db id pf sv) id =
      some { r with parsed_forecast := pf, schema_version := sv } := by
  induction db with
  | nil => simp [db_get] at h
  | cons x xs ih =>
    by_cases hc : x.google_drive_id = id
    · simp [db_get, hc] at h
      subst h
      simp [db_update_parsed, db_get, hc]
    · simp only [db_get, if_neg hc] at h
      simpa [db_update_parsed, db_get, hc] using ih h

theorem mem_db_update {F : Type} {db : DB F} {id : String} {pf : Option F}
    {sv : Option String} {r : ForecastFile F}
    (h : r ∈ db_update_parsed db id pf sv) :
    r ∈ db ∨ ∃ r0 ∈ db,
      r = { r0 with parsed_forecast := pf, schema_version := sv } := by
  simp only [db_update_parsed, List.mem_map] at h
  obtain ⟨r0, hr0, heq⟩ := h
  by_cases hc : r0.google_drive_id = id
  · right
    refine ⟨r0, hr0, ?_⟩
    rw [← heq]
    simp [hc]
  · left
    rw [← heq]
    simpa [hc] using hr0

theorem fresh_cached_eq_some {F : Type} {db : DB F} {m : ListFileMetadata}
    {r : ForecastFile F} :
    fresh_cached db m = some r ↔
      db_get db m.id = some r ∧ r.last_modified = m.modified_time := by
  unfold fresh_cached
  cases h : db_get db m.id with
  | none => simp
  | some c =>
    by_cases hc : c.last_modified = m.modified_time
    · simp only [Option.some_bind, if_pos hc]
      constructor
      · rintro h'
        injection h' with h'
        subst h'
        exact ⟨rfl, hc⟩
      · rintro ⟨h', _⟩
        injection h' with h'
        rw [h']
    · simp only [Option.some_bind, if_neg hc]
      constructor
      · rintro h'
        exact absurd h' (by simp)
      · rintro ⟨h', hlm⟩
        injection h' with h'
        subst h'
        exact absurd hlm hc

theorem fresh_cached_eq_none {F : Type} {db : DB F} {m : ListFileMetadata} :
    fresh_cached db m = none ↔
      ∀ r, db_get db m.id = some r → r.last_modified ≠ m.modified_time := by
  unfold fresh_cached
  cases h : db_get db m.id with
  | none => simp
  | some c =>
    by_cases hc : c.last_modified = m.modified_time
    · simp only [Option.some_bind, if_pos hc]
      constructor
      · rintro h'
        exact absurd h' (by simp)
      · rintro h'
        exact absurd hc (h' c rfl)
    · simp only [Option.some_bind, if_neg hc]
      constructor
      · rintro _ r hr
        injection hr with hr
        subst hr
        exact hc
      · rintro _
        trivial

theorem finish_request_fetches {F : Type} (requested : RequestedForecastData)
    (db : DB F) (cf : ForecastFile F) (sch : Schema F) (t : Trace) :
    (finish_request requested db cf sch t).trace.fetches = t.fetches := by
  cases requested with
  | File => rfl
  | Forecast =>
    cases hp : cf.parsed_forecast with
    | some f =>
      simp only [finish_request, hp]
      split
      · rfl
      · simp only [reparse_and_update]
        split <;> rfl
    | none =>
      simp only [finish_request, hp, reparse_and_update]
      split <;> rfl

theorem finish_request_pairInv {F : Type} (requested : RequestedForecastData)
    (db : DB F) (cf : ForecastFile F) (sch : Schema F) (t : Trace)
    (hinv : ∀ r ∈ db, pairInv r) :
    ∀ r ∈ (finish_request requested db cf sch t).db, pairInv r := by
  cases requested with
  | File => exact hinv
  | Forecast =>
    have hrep : ∀ r ∈ (reparse_and_update db cf sch t).db, pairInv r := by
      unfold reparse_and_update
      cases hp : sch.parse cf.file_blob with
      | none => exact hinv
      | some f =>
        intro r hr
        rcases mem_db_update hr with h | ⟨r0, _, h⟩
        · exact hinv r h
        · rw [h]
          simp [pairInv]
    cases hp : cf.parsed_forecast with
    | some f =>
      simp only [finish_request, hp]
      split
      · exact hinv
      · exact hrep
    | none =>
      simp only [finish_request, hp]
      exact hrep

/-! ## Witness fixtures for the cache claims -/

/-- Fixture: a remote store returning fixed bytes for every file. -/
def wRemote : Remote := ⟨fun _ => some [1, 2], fun _ => some [3, 4]⟩

/-- Fixture: a schema of version "0.3.1" whose parser returns the byte
count. -/
def wSchema : Schema Nat := ⟨"0.3.1", fun b => some b.length⟩

/-- Fixture: listing metadata for a google-sheet file. -/
def wSheetMeta : ListFileMetadata :=
  ⟨"application/vnd.google-apps.spreadsheet", "id1", "forecast.xlsx", 100⟩

/-- Fixture: listing metadata for a pdf file. -/
def wPdfMeta : ListFileMetadata := ⟨"application/pdf", "id1", "forecast.pdf", 100⟩

/-- Fixture: a cached row that is fresh for `wSheetMeta`, holding a parse
made under the older schema version "0.1.0". -/
def wRowOld : ForecastFile Nat := ⟨"id1", 100, [7, 7, 7], some 9, some "0.1.0"⟩

/-! ## Claim theorems: cache -/

/-- C1: in `get_forecast_data`, the cached record is treated as fresh iff a
record for the id exists and its stored `last_modified` equals the remote
descriptor's `modified_time` exactly, and `raw_content` is refetched from
the remote store (an `export_file`/`get_file` call happens) exactly when no
record exists or this equality fails — never when it holds.  The
content-kind guard is assumed to pass, since it exits before the freshness
test. -/
theorem getData_freshness {F : Type} (remote : Remote) (m : ListFileMetadata)
    (requested : RequestedForecastData) (db : DB F) (forecast_schema : Schema F)
    (hguard : ¬(requested = RequestedForecastData.Forecast ∧
      m.is_google_sheet = false)) :
    ((∃ r, fresh_cached db m = some r) ↔
      (∃ r, db_get db m.id = some r ∧ r.last_modified = m.modified_time)) ∧
    ((get_forecast_data remote m requested db forecast_schema).trace.fetches = 0 ↔
      (∃ r, db_get db m.id = some r ∧ r.last_modified = m.modified_time)) := by
  constructor
  · constructor
    · rintro ⟨r, hr⟩
      exact ⟨r, fresh_cached_eq_some.mp hr⟩
    · rintro ⟨r, hr, hlm⟩
      exact ⟨r, fresh_cached_eq_some.mpr ⟨hr, hlm⟩⟩
  · unfold get_forecast_data
    rw [if_neg hguard]
    cases hf : fresh_cached db m with
    | some cf =>
      rw [finish_request_fetches]
      simp only [true_iff, eq_self_iff_true]
      exact ⟨cf, fresh_cached_eq_some.mp hf⟩
    | none =>
      have hnone := fresh_cached_eq_none.mp hf
      have hright : ¬∃ r, db_get db m.id = some r ∧
          r.last_modified = m.modified_time := by
        rintro ⟨r, hr, hlm⟩
        exact hnone r hr hlm
      cases requested with
      | Forecast =>
        cases he : remote.export_file m.id with
        | none => simp [hright]
        | some bytes =>
          cases hp : forecast_schema.parse bytes with
          | none => simp [hp, hright]
          | some f => simp [hp, finish_request_fetches, hright]
      | File =>
        cases he : remote.get_file m.id with
        | none => simp [hright]
        | some bytes => simp [finish_request_fetches, hright]

/-- Witness for C1 at a concrete fresh cache state: a file request over a
database whose row for "id1" carries the matching timestamp 100. -/
theorem getData_freshness_witness :
    ((∃ r, fresh_cached [wRowOld] wSheetMeta = some r) ↔
      (∃ r, db_get [wRowOld] wSheetMeta.id = some r ∧
        r.last_modified = wSheetMeta.modified_time)) ∧
    ((get_forecast_data wRemote wSheetMeta RequestedForecastData.File [wRowOld]
        wSchema).trace.fetches = 0 ↔
      (∃ r, db_get [wRowOld] wSheetMeta.id = some r ∧
        r.last_modified = wSheetMeta.modified_time)) :=
  getData_freshness wRemote wSheetMeta RequestedForecastData.File [wRowOld]
    wSchema (by decide)

/-- C3: when the cached record is fresh and the request is for the raw
file, `get_forecast_data` returns the stored `file_blob` byte-identically,
performs no remote content fetch, no parse and no database write (the
trace records the single row read only), and leaves the database exactly
unchanged. -/
theorem getData_fresh_file_request {F : Type} (remote : Remote)
    (m : ListFileMetadata) (db : DB F) (forecast_schema : Schema F)
    (r : ForecastFile F) (hget : db_get db m.id = some r)
    (hfresh : r.last_modified = m.modified_time) :
    get_forecast_data remote m RequestedForecastData.File db forecast_schema =
      ⟨Except.ok (ForecastData.File r.file_blob), db, ⟨0, 0, 1, 0⟩⟩ := by
  have hf : fresh_cached db m = some r := fresh_cached_eq_some.mpr ⟨hget, hfresh⟩
  simp [get_forecast_data, hf, finish_request]

/-- Witness for C3: the fresh row of the fixture database is served as is
and the database comes back unchanged. -/
theorem getData_fresh_file_request_witness :
    get_forecast_data wRemote wSheetMeta RequestedForecastData.File [wRowOld]
        wSchema =
      ⟨Except.ok (ForecastData.File [7, 7, 7]), [wRowOld], ⟨0, 0, 1, 0⟩⟩ :=
  getData_fresh_file_request wRemote wSheetMeta [wRowOld] wSchema wRowOld
    (by decide) (by decide)

/-- C9: for a document whose content kind is not the google-sheet kind, a
forecast request fails with the unsupported-content-kind error before any
remote content fetch, parse, or database read or write (all four effect
counters are zero), leaving the database unchanged; the error is the
call's result, with no internal retry. -/
theorem getData_unsupported_content_kind {F : Type} (remote : Remote)
    (m : ListFileMetadata) (requested : RequestedForecastData) (db : DB F)
    (forecast_schema : Schema F)
    (hreq : requested = RequestedForecastData.Forecast)
    (hmime : m.is_google_sheet = false) :
    get_forecast_data remote m requested db forecast_schema =
      ⟨Except.error CacheError.UnsupportedContentKind, db, ⟨0, 0, 0, 0⟩⟩ := by
  subst hreq
  simp [get_forecast_data, hmime]

/-- Witness for C9: a forecast request against a pdf file. -/
theorem getData_unsupported_content_kind_witness :
    get_forecast_data wRemote wPdfMeta RequestedForecastData.Forecast [wRowOld]
        wSchema =
      ⟨Except.error CacheError.UnsupportedContentKind, [wRowOld], ⟨0, 0, 0, 0⟩⟩ :=
  getData_unsupported_content_kind wRemote wPdfMeta RequestedForecastData.Forecast
    [wRowOld] wSchema rfl (by decide)

/-- C2: when the cached record is fresh and a parsed forecast is
requested, a missing stored parse or a stored schema version different
from the current one triggers exactly one reparse of the cached
`file_blob`, persisted through the parse-only update (which leaves
`file_blob` and `last_modified` of the row untouched) and returned; a
second request under the same schema then reuses the stored parse with no
further reparse and no database change.  When the stored schema version
already equals the current one, the stored parse is returned with no
reparse and no database change. -/
theorem getData_schema_reparse {F : Type} (remote : Remote)
    (m : ListFileMetadata) (db : DB F) (forecast_schema : Schema F)
    (r : ForecastFile F) (hsheet : m.is_google_sheet = true)
    (hget : db_get db m.id = some r)
    (hfresh : r.last_modified = m.modified_time) :
    (∀ f, (r.parsed_forecast = none ∨
        r.schema_version ≠ some forecast_schema.schema_version) →
      forecast_schema.parse r.file_blob = some f →
      get_forecast_data remote m RequestedForecastData.Forecast db
          forecast_schema =
        ⟨Except.ok (ForecastData.Forecast f),
          db_update_parsed db m.id (some f)
            (some forecast_schema.schema_version), ⟨0, 1, 1, 1⟩⟩ ∧
      db_get (db_update_parsed db m.id (some f)
          (some forecast_schema.schema_version)) m.id =
        some
          { r with parsed_forecast := some f, schema_version := some forecast_schema.schema_version } ∧
      get_forecast_data remote m RequestedForecastData.Forecast
          (db_update_parsed db m.id (some f)
            (some forecast_schema.schema_version)) forecast_schema =
        ⟨Except.ok (ForecastData.Forecast f),
          db_update_parsed db m.id (some f)
            (some forecast_schema.schema_version), ⟨0, 0, 1, 0⟩⟩) ∧
    (∀ f0, r.parsed_forecast = some f0 →
      r.schema_version = some forecast_schema.schema_version →
      get_forecast_data remote m RequestedForecastData.Forecast db
          forecast_schema =
        ⟨Except.ok (ForecastData.Forecast f0), db, ⟨0, 0, 1, 0⟩⟩) := by
  have hguard : ¬(RequestedForecastData.Forecast = RequestedForecastData.Forecast ∧
      m.is_google_sheet = false) := by simp [hsheet]
  have hf : fresh_cached db m = some r := fresh_cached_eq_some.mpr ⟨hget, hfresh⟩
  have hrid : r.google_drive_id = m.id := db_get_id hget
  constructor
  · intro f hmis hparse
    have h1 : get_forecast_data remote m RequestedForecastData.Forecast db
        forecast_schema =
        ⟨Except.ok (ForecastData.Forecast f),
          db_update_parsed db m.id (some f)
            (some forecast_schema.schema_version), ⟨0, 1, 1, 1⟩⟩ := by
      unfold get_forecast_data
      rw [if_neg hguard]
      rcases hmis with hnone | hne
      · simp [hf, finish_request, hnone, reparse_and_update, hparse, hrid]
      · cases hp0 : r.parsed_forecast with
        | none =>
          simp [hf, finish_request, hp0, reparse_and_update, hparse, hrid]
        | some f0 =>
          simp [hf, finish_request, hp0, hne, reparse_and_update, hparse, hrid]
    have h2 : db_get (db_update_parsed db m.id (some f)
        (some forecast_schema.schema_version)) m.id =
        some
          { r with parsed_forecast := some f, schema_version := some forecast_schema.schema_version } :=
      db_get_update_self _ _ hget
    refine ⟨h1, h2, ?_⟩
    have hf2 : fresh_cached (db_update_parsed db m.id (some f)
        (some forecast_schema.schema_version)) m =
        some
          { r with parsed_forecast := some f, schema_version := some forecast_schema.schema_version } :=
      fresh_cached_eq_some.mpr ⟨h2, hfresh⟩
    unfold get_forecast_data
    rw [if_neg hguard]
    simp [hf2, finish_request]
  · intro f0 hp0 hsv
    unfold get_forecast_data
    rw [if_neg hguard]
    simp [hf, finish_request, hp0, hsv]

/-- Witness for C2: the fixture row is fresh for the listing metadata but
parsed under version "0.1.0" while the current schema is "0.3.1", so the
call reparses (parse of the three cached bytes gives 3) and persists the
parse-only update. -/
theorem getData_schema_reparse_witness :
    get_forecast_data wRemote wSheetMeta RequestedForecastData.Forecast
        [wRowOld] wSchema =
      ⟨Except.ok (ForecastData.Forecast 3),
        db_update_parsed [wRowOld] wSheetMeta.id (some 3)
          (some wSchema.schema_version), ⟨0, 1, 1, 1⟩⟩ :=
  ((getData_schema_reparse wRemote wSheetMeta [wRowOld] wSchema wRowOld
    (by decide) (by decide) (by decide)).1 3 (Or.inr (by decide)) (by decide)).1

/-- C10: with the cached record absent or stale, a raw-file request
fetches the raw bytes and performs the full upsert, storing the new
`file_blob` and `last_modified` with the parsed fields absent — any
previously cached parse for that id is discarded — so a subsequent
forecast request under the same schema reparses (its trace shows one
parse) instead of reusing a parse. -/
theorem getData_stale_file_upsert {F : Type} (remote : Remote)
    (m : ListFileMetadata) (db : DB F) (forecast_schema : Schema F)
    (bytes : List Nat) (f : F) (hsheet : m.is_google_sheet = true)
    (hstale : ∀ r, db_get db m.id = some r →
      r.last_modified ≠ m.modified_time)
    (hfetch : remote.get_file m.id = some bytes)
    (hparse : forecast_schema.parse bytes = some f) :
    get_forecast_data remote m RequestedForecastData.File db forecast_schema =
      ⟨Except.ok (ForecastData.File bytes),
        db_upsert db ⟨m.id, m.modified_time, bytes, none, none⟩,
        ⟨1, 0, 1, 1⟩⟩ ∧
    db_get (db_upsert db ⟨m.id, m.modified_time, bytes, none, none⟩) m.id =
      some ⟨m.id, m.modified_time, bytes, none, none⟩ ∧
    get_forecast_data remote m RequestedForecastData.Forecast
        (db_upsert db ⟨m.id, m.modified_time, bytes, none, none⟩)
        forecast_schema =
      ⟨Except.ok (ForecastData.Forecast f),
        db_update_parsed
          (db_upsert db ⟨m.id, m.modified_time, bytes, none, none⟩) m.id
          (some f) (some forecast_schema.schema_version), ⟨0, 1, 1, 1⟩⟩ := by
  have hguard : ¬(RequestedForecastData.Forecast = RequestedForecastData.Forecast ∧
      m.is_google_sheet = false) := by simp [hsheet]
  have hf : fresh_cached db m = none := fresh_cached_eq_none.mpr hstale
  have h1 : get_forecast_data remote m RequestedForecastData.File db
      forecast_schema =
      ⟨Except.ok (ForecastData.File bytes),
        db_upsert db ⟨m.id, m.modified_time, bytes, none, none⟩,
        ⟨1, 0, 1, 1⟩⟩ := by
    unfold get_forecast_data
    rw [if_neg (by simp)]
    simp [hf, hfetch, finish_request]
  have h2 : db_get (db_upsert db ⟨m.id, m.modified_time, bytes, none, none⟩)
      m.id = some ⟨m.id, m.modified_time, bytes, none, none⟩ :=
    db_get_upsert_self db ⟨m.id, m.modified_time, bytes, none, none⟩
  refine ⟨h1, h2, ?_⟩
  have hf2 : fresh_cached
      (db_upsert db ⟨m.id, m.modified_time, bytes, none, none⟩) m =
      some ⟨m.id, m.modified_time, bytes, none, none⟩ :=
    fresh_cached_eq_some.mpr ⟨h2, rfl⟩
  unfold get_forecast_data
  rw [if_neg hguard]
  simp [hf2, finish_request, reparse_and_update, hparse]

/-- Witness for C10 over an empty database: a raw-file request stores the
fetched bytes with no parsed fields, and the follow-up forecast request
reparses them. -/
theorem getData_stale_file_upsert_witness :
    get_forecast_data wRemote wSheetMeta RequestedForecastData.File []
        wSchema =
      ⟨Except.ok (ForecastData.File [3, 4]),
        db_upsert []
          ⟨wSheetMeta.id, wSheetMeta.modified_time, [3, 4], none, none⟩,
        ⟨1, 0, 1, 1⟩⟩ :=
  (getData_stale_file_upsert wRemote wSheetMeta [] wSchema [3, 4] 2
    (by decide) (by simp [db_get]) (by decide) (by decide)).1

/-- C4: `get_forecast_data` preserves the pairing invariant — if every row
of the database has `parsed_forecast` present iff `schema_version` is
present, the same holds of every row after the call, whichever write path
(full upsert or parse-only update) it takes. -/
theorem getData_pair_invariant {F : Type} (remote : Remote)
    (m : ListFileMetadata) (requested : RequestedForecastData) (db : DB F)
    (forecast_schema : Schema F) (hinv : ∀ r ∈ db, pairInv r) :
    ∀ r ∈ (get_forecast_data remote m requested db forecast_schema).db,
      pairInv r := by
  unfold get_forecast_data
  split
  · exact hinv
  · cases hf : fresh_cached db m with
    | some cf => exact finish_request_pairInv _ _ _ _ _ hinv
    | none =>
      cases requested with
      | Forecast =>
        cases he : remote.export_file m.id with
        | none => exact hinv
        | some bytes =>
          cases hp : forecast_schema.parse bytes with
          | none =>
            simp only [hp]
            exact hinv
          | some f =>
            simp only [hp]
            exact finish_request_pairInv _ _ _ _ _ (fun r hr =>
              (mem_db_upsert hr).elim
                (fun h => by rw [h]; simp [pairInv]) (fun h => hinv r h))
      | File =>
        cases he : remote.get_file m.id with
        | none => exact hinv
        | some bytes =>
          exact finish_request_pairInv _ _ _ _ _ (fun r hr =>
            (mem_db_upsert hr).elim
              (fun h => by rw [h]; simp [pairInv]) (fun h => hinv r h))

/-- Witness for C4: starting from the empty database, the row written by a
raw-file request satisfies the pairing invariant (both parsed fields
absent). -/
theorem getData_pair_invariant_witness :
    pairInv (⟨"id1", 100, [3, 4], none, none⟩ : ForecastFile Nat) :=
  getData_pair_invariant wRemote wSheetMeta RequestedForecastData.File []
    wSchema (by simp) _ (by decide)

/-! ## Claim theorems: name decoder -/

/-- The last stage of `parse_forecast_name_impl`: resolution of the
optional language segment against already-computed details. -/
def language_result (langid : String → Option String)
    (rest_parts : List (List Char)) (dtl : ForecastDetails) :
    Except NameError ForecastFileDetails :=
  match rest_parts with
  | [] => Except.ok ⟨dtl, none⟩
  | language_chars :: _ =>
    match langid (String.mk language_chars) with
    | none => Except.error NameError.LanguageParseError
    | some language => Except.ok ⟨dtl, some language⟩

/-- Evaluation of `parse_forecast_name_impl` when the details segment
carries at least three tokens and the lookups and the time parse succeed:
the outcome depends only on the optional language segment, and a
successful decode carries the two-phase-resolved time. -/
theorem parse_forecast_name_impl_eval (langid : String → Option String)
    (file_name : String) (area_name_map : List (String × String))
    (area_definitions : List (String × AreaDefinition)) (details : List Char)
    (rest_parts : List (List Char)) (a t f : List Char)
    (toks : List (List Char)) (area_id : String) (ad : AreaDefinition)
    (pdt : PrimitiveDateTime)
    (h1 : splitOnChar '.' file_name.data = details :: rest_parts)
    (h2 : splitOnChar '_' details = a :: t :: f :: toks)
    (h3 : alist_get area_name_map (String.mk a) = some area_id)
    (h4 : alist_get area_definitions area_id = some ad)
    (h5 : parsePrimitiveDateTime t = some pdt) :
    parse_forecast_name_impl langid file_name area_name_map area_definitions =
      language_result langid rest_parts ⟨String.mk a,
        ⟨pdt, ad.time_zone.offset_at (OffsetDateTime.unix_timestamp
          ⟨pdt, ad.time_zone.primary_offset⟩)⟩, String.mk f⟩ := by
  unfold parse_forecast_name_impl
  rw [h1]
  simp only [h2, h3, h4, h5]
  rfl

/-- C5: `parse_forecast_name_impl` resolves the local-time literal by
two-phase resolution — every successful decode returns the wall-clock
fields recombined with the offset the area's timezone rules give at the
provisional instant obtained from the primary offset — and, with
Melbourne's seasonal rule set, the name before the transition resolves to
offset +10:00 and the name after it to +11:00. -/
theorem decode_two_phase_resolution (langid : String → Option String)
    (hl : langid "en" = some "en") (file_name : String)
    (area_name_map : List (String × String))
    (area_definitions : List (String × AreaDefinition)) (details : List Char)
    (rest_parts : List (List Char)) (a t f : List Char)
    (toks : List (List Char)) (area_id : String) (ad : AreaDefinition)
    (pdt : PrimitiveDateTime) (d : ForecastFileDetails)
    (h1 : splitOnChar '.' file_name.data = details :: rest_parts)
    (h2 : splitOnChar '_' details = a :: t :: f :: toks)
    (h3 : alist_get area_name_map (String.mk a) = some area_id)
    (h4 : alist_get area_definitions area_id = some ad)
    (h5 : parsePrimitiveDateTime t = some pdt)
    (h6 : parse_forecast_name_impl langid file_name area_name_map
      area_definitions = Except.ok d) :
    d.forecast.time = ⟨pdt, ad.time_zone.offset_at
      (OffsetDateTime.unix_timestamp ⟨pdt, ad.time_zone.primary_offset⟩)⟩ ∧
    parse_forecast_name_impl langid "Melbourne_2023-10-01T01:00_LF.en.pdf"
        melbourneMap melbourneDefs =
      Except.ok ⟨⟨"Melbourne", ⟨⟨2023, 10, 1, 1, 0⟩, 36000⟩, "LF"⟩, some "en"⟩ ∧
    parse_forecast_name_impl langid "Melbourne_2023-10-01T02:00_LF.en.pdf"
        melbourneMap melbourneDefs =
      Except.ok ⟨⟨"Melbourne", ⟨⟨2023, 10, 1, 2, 0⟩, 39600⟩, "LF"⟩,
        some "en"⟩ := by
  have hmk : String.mk "en".data = "en" := by decide
  refine ⟨?_, ?_, ?_⟩
  · have he := parse_forecast_name_impl_eval langid file_name area_name_map
      area_definitions details rest_parts a t f toks area_id ad pdt
      h1 h2 h3 h4 h5
    rw [he] at h6
    cases rest_parts with
    | nil =>
      injection h6 with h6
      rw [← h6]
    | cons l ls =>
      simp only [language_result] at h6
      cases hlg : langid (String.mk l) with
      | none =>
        rw [hlg] at h6
        exact Except.noConfusion h6
      | some lg =>
        rw [hlg] at h6
        injection h6 with h6
        rw [← h6]
  · have he := parse_forecast_name_impl_eval langid
      "Melbourne_2023-10-01T01:00_LF.en.pdf" melbourneMap melbourneDefs
      "Melbourne_2023-10-01T01:00_LF".data ["en".data, "pdf".data]
      "Melbourne".data "2023-10-01T01:00".data "LF".data [] "melbourne"
      ⟨melbourneTz⟩ ⟨2023, 10, 1, 1, 0⟩ (by decide) (by decide) (by decide)
      (by rfl) (by decide)
    rw [he]
    simp only [language_result, hmk, hl]
    decide
  · have he := parse_forecast_name_impl_eval langid
      "Melbourne_2023-10-01T02:00_LF.en.pdf" melbourneMap melbourneDefs
      "Melbourne_2023-10-01T02:00_LF".data ["en".data, "pdf".data]
      "Melbourne".data "2023-10-01T02:00".data "LF".data [] "melbourne"
      ⟨melbourneTz⟩ ⟨2023, 10, 1, 2, 0⟩ (by decide) (by decide) (by decide)
      (by rfl) (by decide)
    rw [he]
    simp only [language_result, hmk, hl]
    decide

/-- Witness for C5 at the Melbourne pre-transition decode: the returned
time equals the wall-clock fields paired with the offset the rules give at
the provisional primary-offset instant. -/
theorem decode_two_phase_resolution_witness :
    (⟨⟨"Melbourne", ⟨⟨2023, 10, 1, 1, 0⟩, 36000⟩, "LF"⟩, some "en"⟩ :
        ForecastFileDetails).forecast.time =
      ⟨⟨2023, 10, 1, 1, 0⟩, melbourneTz.offset_at
        (OffsetDateTime.unix_timestamp
          ⟨⟨2023, 10, 1, 1, 0⟩, melbourneTz.primary_offset⟩)⟩ :=
  (decode_two_phase_resolution langid_fixture (by decide)
    "Melbourne_2023-10-01T01:00_LF.en.pdf" melbourneMap melbourneDefs
    "Melbourne_2023-10-01T01:00_LF".data ["en".data, "pdf".data]
    "Melbourne".data "2023-10-01T01:00".data "LF".data [] "melbourne"
    ⟨melbourneTz⟩ ⟨2023, 10, 1, 1, 0⟩
    ⟨⟨"Melbourne", ⟨⟨2023, 10, 1, 1, 0⟩, 36000⟩, "LF"⟩, some "en"⟩
    (by decide) (by decide) (by decide) (by rfl) (by decide) (by decide)).1

/-- C7: decoding "Gudauri_2023-01-24T17:00_LF.en.pdf" against a table
mapping Gudauri to a fixed UTC+4 timezone succeeds with area "Gudauri",
forecaster "LF", time 2023-01-24T17:00:00+04:00 and language "en" (for
any language parser that accepts "en" as itself). -/
theorem decode_nominal_gudauri (langid : String → Option String)
    (hl : langid "en" = some "en") :
    parse_forecast_name_impl langid "Gudauri_2023-01-24T17:00_LF.en.pdf"
        gudauriMap gudauriDefs =
      Except.ok ⟨⟨"Gudauri", ⟨⟨2023, 1, 24, 17, 0⟩, 14400⟩, "LF"⟩,
        some "en"⟩ := by
  have he := parse_forecast_name_impl_eval langid
    "Gudauri_2023-01-24T17:00_LF.en.pdf" gudauriMap gudauriDefs
    "Gudauri_2023-01-24T17:00_LF".data ["en".data, "pdf".data] "Gudauri".data
    "2023-01-24T17:00".data "LF".data [] "gudauri" ⟨gudauriTz⟩
    ⟨2023, 1, 24, 17, 0⟩ (by decide) (by decide) (by decide) (by rfl)
    (by decide)
  have hmk : String.mk "en".data = "en" := by decide
  rw [he]
  simp only [language_result, hmk, hl]
  decide

/-- Witness for C7 with the fixture language parser. -/
theorem decode_nominal_gudauri_witness :
    parse_forecast_name_impl langid_fixture
        "Gudauri_2023-01-24T17:00_LF.en.pdf" gudauriMap gudauriDefs =
      Except.ok ⟨⟨"Gudauri", ⟨⟨2023, 1, 24, 17, 0⟩, 14400⟩, "LF"⟩,
        some "en"⟩ :=
  decode_nominal_gudauri langid_fixture (by decide)

/-- C8: for any name whose details stage succeeds, the optional language
comes from the name segment after the details segment — if that segment is
present but rejected by the language parser the decode fails with the
language parse error, and if it is absent the decode succeeds with the
language absent. -/
theorem decode_language_handling (langid : String → Option String)
    (file_name : String) (area_name_map : List (String × String))
    (area_definitions : List (String × AreaDefinition)) (details : List Char)
    (rest_parts : List (List Char)) (a t f : List Char)
    (toks : List (List Char)) (area_id : String) (ad : AreaDefinition)
    (pdt : PrimitiveDateTime)
    (h1 : splitOnChar '.' file_name.data = details :: rest_parts)
    (h2 : splitOnChar '_' details = a :: t :: f :: toks)
    (h3 : alist_get area_name_map (String.mk a) = some area_id)
    (h4 : alist_get area_definitions area_id = some ad)
    (h5 : parsePrimitiveDateTime t = some pdt) :
    (∀ l ls, rest_parts = l :: ls → langid (String.mk l) = none →
      parse_forecast_name_impl langid file_name area_name_map
        area_definitions = Except.error NameError.LanguageParseError) ∧
    (rest_parts = [] →
      parse_forecast_name_impl langid file_name area_name_map
          area_definitions =
        Except.ok ⟨⟨String.mk a,
          ⟨pdt, ad.time_zone.offset_at (OffsetDateTime.unix_timestamp
            ⟨pdt, ad.time_zone.primary_offset⟩)⟩, String.mk f⟩, none⟩) := by
  have he := parse_forecast_name_impl_eval langid file_name area_name_map
    area_definitions details rest_parts a t f toks area_id ad pdt
    h1 h2 h3 h4 h5
  constructor
  · intro l ls hrest hlg
    subst hrest
    rw [he]
    simp only [language_result, hlg]
  · intro hrest
    subst hrest
    rw [he]
    rfl

/-- Witness for C8: a trailing segment "zz" rejected by the fixture
language parser makes the decode fail with the language parse error. -/
theorem decode_language_handling_witness :
    parse_forecast_name_impl langid_fixture "Gudauri_2023-01-24T17:00_LF.zz"
        gudauriMap gudauriDefs = Except.error NameError.LanguageParseError :=
  (decode_language_handling langid_fixture "Gudauri_2023-01-24T17:00_LF.zz"
    gudauriMap gudauriDefs "Gudauri_2023-01-24T17:00_LF".data ["zz".data]
    "Gudauri".data "2023-01-24T17:00".data "LF".data [] "gudauri" ⟨gudauriTz⟩
    ⟨2023, 1, 24, 17, 0⟩ (by decide) (by decide) (by decide) (by rfl)
    (by decide)).1 "zz".data [] rfl (by decide)

/-- C6 counterexample: "justonename.pdf" decoded against the Gudauri table
(which does not map "justonename") fails with the unknown-area error, not
with a `MalformedName` error — the area token is present even in a
one-token details segment, so the lookup stage fails first. -/
theorem decode_justonename_counterexample :
    parse_forecast_name_impl langid_fixture "justonename.pdf" gudauriMap
        gudauriDefs = Except.error (NameError.UnknownArea "justonename") ∧
    isMalformedName (NameError.UnknownArea "justonename") = false := by
  decide

/-- C6 amended: a details segment with fewer than three tokens makes the
decode fail, and the missing-time and missing-forecaster cases are
reported distinctly — but only once the earlier stages succeed: a
one-token name whose token resolves in both area tables fails with the
missing-time error, a two-token name whose area resolves and whose time
parses fails with the missing-forecaster error, a name whose area token is
not in the table fails with the unknown-area error instead, and the
empty-name and missing-area errors are unreachable because splitting
always yields at least one (possibly empty) area token. -/
theorem decode_malformed_name_amended :
    (∀ (langid : String → Option String) (file_name : String)
      (area_name_map : List (String × String))
      (area_definitions : List (String × AreaDefinition))
      (details : List Char) (rest_parts : List (List Char)) (a : List Char)
      (area_id : String) (ad : AreaDefinition),
      splitOnChar '.' file_name.data = details :: rest_parts →
      splitOnChar '_' details = [a] →
      alist_get area_name_map (String.mk a) = some area_id →
      alist_get area_definitions area_id = some ad →
      parse_forecast_name_impl langid file_name area_name_map
        area_definitions = Except.error NameError.NoTimeSpecified) ∧
    (∀ (langid : String → Option String) (file_name : String)
      (area_name_map : List (String × String))
      (area_definitions : List (String × AreaDefinition))
      (details : List Char) (rest_parts : List (List Char)) (a t : List Char)
      (area_id : String) (ad : AreaDefinition) (pdt : PrimitiveDateTime),
      splitOnChar '.' file_name.data = details :: rest_parts →
      splitOnChar '_' details = [a, t] →
      alist_get area_name_map (String.mk a) = some area_id →
      alist_get area_definitions area_id = some ad →
      parsePrimitiveDateTime t = some pdt →
      parse_forecast_name_impl langid file_name area_name_map
        area_definitions = Except.error NameError.NoForecasterSpecified) ∧
    (∀ (langid : String → Option String) (file_name : String)
      (area_name_map : List (String × String))
      (area_definitions : List (String × AreaDefinition))
      (details : List Char) (rest_parts : List (List Char)) (a : List Char)
      (toks : List (List Char)),
      splitOnChar '.' file_name.data = details :: rest_parts →
      splitOnChar '_' details = a :: toks →
      alist_get area_name_map (String.mk a) = none →
      parse_forecast_name_impl langid file_name area_name_map
        area_definitions = Except.error (NameError.UnknownArea (String.mk a))) ∧
    (∀ (langid : String → Option String) (file_name : String)
      (area_name_map : List (String × String))
      (area_definitions : List (String × AreaDefinition)),
      parse_forecast_name_impl langid file_name area_name_map
        area_definitions ≠ Except.error NameError.FileNameEmpty ∧
      parse_forecast_name_impl langid file_name area_name_map
        area_definitions ≠ Except.error NameError.NoAreaSpecified) := by
  refine ⟨?_, ?_, ?_, ?_⟩
  · intro langid file_name area_name_map area_definitions details rest_parts
      a area_id ad h1 h2 h3 h4
    simp [parse_forecast_name_impl, h1, h2, h3, h4]
  · intro langid file_name area_name_map area_definitions details rest_parts
      a t area_id ad pdt h1 h2 h3 h4 h5
    simp [parse_forecast_name_impl, h1, h2, h3, h4, h5]
  · intro langid file_name area_name_map area_definitions details rest_parts
      a toks h1 h2 h3
    simp [parse_forecast_name_impl, h1, h2, h3]
  · intro langid file_name area_name_map area_definitions
    cases hsp : splitOnChar '.' file_name.data with
    | nil => exact absurd hsp (splitOnChar_ne_nil _ _)
    | cons details rest =>
      cases hsd : splitOnChar '_' details with
      | nil => exact absurd hsd (splitOnChar_ne_nil _ _)
      | cons a after =>
        cases h3 : alist_get area_name_map (String.mk a) with
        | none => simp [parse_forecast_name_impl, hsp, hsd, h3]
        | some area_id =>
          cases h4 : alist_get area_definitions area_id with
          | none => simp [parse_forecast_name_impl, hsp, hsd, h3, h4]
          | some ad =>
            cases after with
            | nil => simp [parse_forecast_name_impl, hsp, hsd, h3, h4]
            | cons tc rest2 =>
              cases h5 : parsePrimitiveDateTime tc with
              | none => simp [parse_forecast_name_impl, hsp, hsd, h3, h4, h5]
              | some pdt =>
                cases rest2 with
                | nil => simp [parse_forecast_name_impl, hsp, hsd, h3, h4, h5]
                | cons fc rest3 =>
                  cases rest with
                  | nil =>
                    simp [parse_forecast_name_impl, hsp, hsd, h3, h4, h5]
                  | cons lc rest4 =>
                    cases hlg : langid (String.mk lc) with
                    | none =>
                      simp [parse_forecast_name_impl, hsp, hsd, h3, h4, h5,
                        hlg]
                    | some lg =>
                      simp [parse_forecast_name_impl, hsp, hsd, h3, h4, h5,
                        hlg]

/-- Witness for the amended C6: a bare "Gudauri" name (one token, area
resolvable) fails with the missing-time error. -/
theorem decode_malformed_name_amended_witness :
    parse_forecast_name_impl langid_fixture "Gudauri" gudauriMap gudauriDefs =
      Except.error NameError.NoTimeSpecified :=
  decode_malformed_name_amended.1 langid_fixture "Gudauri" gudauriMap
    gudauriDefs "Gudauri".data [] "Gudauri".data "gudauri" ⟨gudauriTz⟩
    (by decide) (by decide) (by decide) (by rfl)

end AvalancheReport
